import Mathlib

set_option autoImplicit false

/-!
Verification of the catalyst agent pipeline (src/catalyst_agent).

The Python stages in `tools.py` invoke an external LLM; here the generation
capability is an explicit function parameter, and each stage's fan-out loop
is embedded as the corresponding fold over lists.  Python `dict`s (keyed by
task title or phase name) are embedded as association lists with
insertion-order semantics: assignment to an existing key replaces the value
in place, assignment to a fresh key appends.
-/

namespace Catalyst

/-! Schema registry, from src/catalyst_agent/output_structures.py. -/

structure Feature where
  name : String
  description : String
deriving DecidableEq, Repr

structure ParsedRequirements where
  features : List Feature
  constraints : List String
  stakeholders : List String
  success_criteria : List String
deriving DecidableEq, Repr

inductive Difficulty
  | easy
  | medium
  | hard
  | very_hard
deriving DecidableEq, Repr

structure EstimatedComplexity where
  difficulty : Difficulty
  estimated_days : Nat
  risks : List String
deriving DecidableEq, Repr

inductive TaskPriority
  | low
  | medium
  | high
deriving DecidableEq, Repr

/-- Modelled from the spec: the `ProjectPhase` enumeration is imported by
`agent.py` from `output_structures.py` but its definition is missing from the
source snapshot.  The spec describes phase as "a delivery-lifecycle bucket
(e.g., setup, implementation, testing, documentation)", matching the four
task categories named in the task-generation prompt. -/
inductive ProjectPhase
  | setup
  | implementation
  | testing
  | documentation
deriving DecidableEq, Repr

/-- The `.value` string of a phase member, as used for the keys of
`development_plan` in `generate_final_json_node`. -/
def ProjectPhase.value : ProjectPhase → String
  | .setup => "setup"
  | .implementation => "implementation"
  | .testing => "testing"
  | .documentation => "documentation"

/-- Modelled from the spec: the `Task` record of `output_structures.py` has
`title`, `description`, `priority`, `dependencies`; the `phase` field is
missing from that schema snapshot although `generate_final_json_node` reads
`task.phase`.  Following the spec, `phase` is treated as a mandatory field
drawn from the fixed `ProjectPhase` enumeration. -/
structure Task where
  title : String
  description : String
  priority : TaskPriority
  dependencies : List String
  phase : ProjectPhase
deriving DecidableEq, Repr

inductive TestType
  | unit
  | integration
deriving DecidableEq, Repr

structure TestDescription where
  test_name : String
  test_type : TestType
  description : String
deriving DecidableEq, Repr

structure AcceptanceCriterion where
  given : String
  when : String
  thenOutcome : String
deriving DecidableEq, Repr

structure TaskAcceptanceCriteria where
  task_title : String
  acceptance_criteria : List AcceptanceCriterion
  unit_tests : List TestDescription
  integration_tests : List TestDescription
deriving DecidableEq, Repr

structure FeatureAcceptanceCriteria where
  feature_name : String
  tasks_criteria : List TaskAcceptanceCriteria
deriving DecidableEq, Repr

/-- Modelled from the spec: the `FeatureCopilotPrompts` record is imported by
`tools.py` and `state.py` but its definition is missing from the source
snapshot.  Per the spec it carries, per feature, an ordered sequence of
(task_title, prompt text) pairs; `generate_final_json_node` reads
`task_prompt.task_title` and `task_prompt.prompt` from its elements. -/
structure TaskCopilotPrompt where
  task_title : String
  prompt : String
deriving DecidableEq, Repr

/-- Modelled from the spec: see `TaskCopilotPrompt`. -/
structure FeatureCopilotPrompts where
  task_prompts : List TaskCopilotPrompt
deriving DecidableEq, Repr

/-! Association-list embedding of Python `dict` (string keys). -/

section Dict

variable {α : Type}

/-- `d[k] = v` on a Python dict: replace in place if the key is present,
append otherwise. -/
def dictInsert : List (String × α) → String → α → List (String × α)
  | [], k, v => [(k, v)]
  | p :: rest, k, v => if p.1 = k then (k, v) :: rest else p :: dictInsert rest k v

/-- Mutating the value at an existing key (`d[k].update`); leaves the dict
unchanged when the key is absent, matching the `if k in d:` guards in
`generate_final_json_node`. -/
def dictUpdate : List (String × α) → String → (α → α) → List (String × α)
  | [], _, _ => []
  | p :: rest, k, f => if p.1 = k then (p.1, f p.2) :: rest else p :: dictUpdate rest k f

/-- `d.get(k)` / `k in d`. -/
def dictLookup : List (String × α) → String → Option α
  | [], _ => none
  | p :: rest, k => if p.1 = k then some p.2 else dictLookup rest k

@[simp] theorem dictLookup_nil (k : String) : dictLookup ([] : List (String × α)) k = none := rfl

@[simp] theorem dictLookup_cons (p : String × α) (rest : List (String × α)) (k : String) :
    dictLookup (p :: rest) k = if p.1 = k then some p.2 else dictLookup rest k := rfl

theorem dictLookup_insert_self (d : List (String × α)) (k : String) (v : α) :
    dictLookup (dictInsert d k v) k = some v := by
  induction d with
  | nil => simp [dictInsert]
  | cons p rest ih =>
    by_cases h : p.1 = k
    · simp [dictInsert, h]
    · simp [dictInsert, h, ih]

theorem dictLookup_insert_ne (d : List (String × α)) (k k' : String) (v : α) (h : k' ≠ k) :
    dictLookup (dictInsert d k v) k' = dictLookup d k' := by
  induction d with
  | nil => simp [dictInsert, Ne.symm h]
  | cons p rest ih =>
    by_cases hp : p.1 = k
    · subst hp
      simp [dictInsert, Ne.symm h]
    · simp only [dictInsert, if_neg hp, dictLookup_cons]
      by_cases hp' : p.1 = k'
      · simp [hp']
      · simp [hp', ih]

theorem dictLookup_update_self (d : List (String × α)) (k : String) (f : α → α) :
    dictLookup (dictUpdate d k f) k = (dictLookup d k).map f := by
  induction d with
  | nil => simp [dictUpdate]
  | cons p rest ih =>
    by_cases h : p.1 = k
    · simp [dictUpdate, h]
    · simp [dictUpdate, h, ih]

theorem dictLookup_update_ne (d : List (String × α)) (k k' : String) (f : α → α) (h : k' ≠ k) :
    dictLookup (dictUpdate d k f) k' = dictLookup d k' := by
  induction d with
  | nil => simp [dictUpdate]
  | cons p rest ih =>
    by_cases hp : p.1 = k
    · subst hp
      simp [dictUpdate, Ne.symm h]
    · simp only [dictUpdate, if_neg hp, dictLookup_cons]
      by_cases hp' : p.1 = k'
      · simp [hp']
      · simp [hp', ih]

theorem dictUpdate_of_lookup_none (d : List (String × α)) (k : String) (f : α → α)
    (h : dictLookup d k = none) : dictUpdate d k f = d := by
  induction d with
  | nil => rfl
  | cons p rest ih =>
    by_cases hp : p.1 = k
    · simp [hp] at h
    · simp only [dictLookup_cons, if_neg hp] at h
      simp [dictUpdate, hp, ih h]

theorem dictUpdate_keys (d : List (String × α)) (k : String) (f : α → α) :
    (dictUpdate d k f).map Prod.fst = d.map Prod.fst := by
  induction d with
  | nil => rfl
  | cons p rest ih =>
    by_cases hp : p.1 = k
    · simp [dictUpdate, hp]
    · simp [dictUpdate, hp, ih]

theorem dictUpdate_length (d : List (String × α)) (k : String) (f : α → α) :
    (dictUpdate d k f).length = d.length := by
  have h := congrArg List.length (dictUpdate_keys d k f)
  simpa using h

theorem dictInsert_length_le (d : List (String × α)) (k : String) (v : α) :
    (dictInsert d k v).length ≤ d.length + 1 := by
  induction d with
  | nil => simp [dictInsert]
  | cons p rest ih =>
    by_cases hp : p.1 = k
    · simp [dictInsert, hp]
    · simpa [dictInsert, hp] using Nat.succ_le_succ ih

theorem dictLookup_isSome_iff (d : List (String × α)) (k : String) :
    (dictLookup d k).isSome = true ↔ k ∈ d.map Prod.fst := by
  induction d with
  | nil => simp
  | cons p rest ih =>
    by_cases hp : p.1 = k
    · simp [hp]
    · rw [dictLookup_cons, if_neg hp]
      simp only [List.map_cons, List.mem_cons]
      rw [ih]
      constructor
      · exact fun hm => Or.inr hm
      · rintro (hm | hm)
        · exact absurd hm.symm hp
        · exact hm

theorem dictInsert_keys_of_mem (d : List (String × α)) (k : String) (v : α)
    (h : k ∈ d.map Prod.fst) : (dictInsert d k v).map Prod.fst = d.map Prod.fst := by
  induction d with
  | nil => simp at h
  | cons p rest ih =>
    by_cases hp : p.1 = k
    · simp [dictInsert, hp]
    · simp only [List.map_cons, List.mem_cons] at h
      rcases h with h | h
      · exact absurd h.symm hp
      · simp [dictInsert, hp, ih h]

theorem dictInsert_keys_of_not_mem (d : List (String × α)) (k : String) (v : α)
    (h : k ∉ d.map Prod.fst) : (dictInsert d k v).map Prod.fst = d.map Prod.fst ++ [k] := by
  induction d with
  | nil => simp [dictInsert]
  | cons p rest ih =>
    simp only [List.map_cons, List.mem_cons] at h
    push_neg at h
    simp only [dictInsert, if_neg (Ne.symm h.1), List.map_cons, ih h.2, List.cons_append]

theorem dictInsert_keys_nodup (d : List (String × α)) (k : String) (v : α)
    (h : (d.map Prod.fst).Nodup) : ((dictInsert d k v).map Prod.fst).Nodup := by
  by_cases hk : k ∈ d.map Prod.fst
  · rw [dictInsert_keys_of_mem d k v hk]
    exact h
  · rw [dictInsert_keys_of_not_mem d k v hk]
    refine List.Nodup.append h (List.nodup_singleton k) ?_
    intro a ha hb
    rw [List.mem_singleton] at hb
    subst hb
    exact hk ha

end Dict

/-! Stage functions, from src/catalyst_agent/tools.py.  The LLM invocations
are abstracted into explicit generation-capability parameters; each loop is
the fold the Python `for` loop performs. -/

/-- `estimate_complexity` (tools.py lines 41-67): one generation call per
feature, responses collected in feature order. -/
def estimate_complexity (gen : Feature → String → EstimatedComplexity)
    (requirements : ParsedRequirements) (raw_text : String) : List EstimatedComplexity :=
  requirements.features.foldl (fun complexities feature => complexities ++ [gen feature raw_text]) []

/-- `generate_tasks` (tools.py lines 69-110): per (feature, complexity) pair
of `zip(features, complexities)`, a first call produces the task-name list
and a second call produces the detailed batch, which is appended as this
feature's task group without validation. -/
def generate_tasks (gen_names : Feature → EstimatedComplexity → List String)
    (gen_details : Feature → List String → List Task)
    (features : List Feature) (complexities : List EstimatedComplexity) : List (List Task) :=
  (features.zip complexities).foldl
    (fun tasks fc => tasks ++ [gen_details fc.1 (gen_names fc.1 fc.2)]) []

/-- `create_acceptance_criteria` (tools.py lines 112-149): one generation
call per (feature, task group) pair of `zip(features, tasks)`. -/
def create_acceptance_criteria (gen : Feature → List Task → FeatureAcceptanceCriteria)
    (features : List Feature) (tasks : List (List Task)) : List FeatureAcceptanceCriteria :=
  (features.zip tasks).foldl (fun acc ft => acc ++ [gen ft.1 ft.2]) []

/-- The `for tc in feature_ac.tasks_criteria: ... break` lookup in
`generate_prompt_for_copilot` (tools.py lines 173-178): first match wins. -/
def find_task_criteria (feature_ac : FeatureAcceptanceCriteria) (task : Task) :
    Option TaskAcceptanceCriteria :=
  feature_ac.tasks_criteria.find? (fun tc => tc.task_title == task.title)

/-- `generate_prompt_for_copilot` (tools.py lines 151-211): per
(feature, task group, criteria) triple of the three-way zip, each task is
paired with its first-matching criteria record and one generation call
produces the feature's prompts. -/
def generate_prompt_for_copilot
    (gen : Feature → List (Task × Option TaskAcceptanceCriteria) → FeatureCopilotPrompts)
    (features : List Feature) (tasks : List (List Task))
    (acceptance_criteria : List FeatureAcceptanceCriteria) : List FeatureCopilotPrompts :=
  (features.zip (tasks.zip acceptance_criteria)).foldl
    (fun acc fta =>
      acc ++ [gen fta.1 (fta.2.1.map (fun task => (task, find_task_criteria fta.2.2 task)))]) []

/-! Aggregator, from `generate_final_json_node` in src/catalyst_agent/agent.py. -/

/-- The value stored in the intermediate `tasks_dict` for one task
(agent.py lines 151-160). -/
structure TaskEntry where
  description : String
  priority : TaskPriority
  dependencies : List String
  phase : ProjectPhase
  acceptance_criteria : Option (List AcceptanceCriterion)
  unit_tests : List TestDescription
  integration_tests : List TestDescription
  copilot_prompt : Option String
deriving DecidableEq, Repr

/-- The fresh `tasks_dict` entry built from a task (agent.py lines 151-160):
enrichment fields start at their defaults. -/
def taskToEntry (task : Task) : TaskEntry :=
  { description := task.description
    priority := task.priority
    dependencies := task.dependencies
    phase := task.phase
    acceptance_criteria := none
    unit_tests := []
    integration_tests := []
    copilot_prompt := none }

/-- Step 1 of the aggregator (agent.py lines 147-160): every task of every
feature group is inserted into `tasks_dict` keyed by title. -/
def build_tasks_dict (tasks : List (List Task)) : List (String × TaskEntry) :=
  tasks.foldl
    (fun d task_group =>
      task_group.foldl (fun d task => dictInsert d task.title (taskToEntry task)) d) []

/-- The field assignments of agent.py lines 165-167. -/
def applyCriteriaToEntry (e : TaskEntry) (tc : TaskAcceptanceCriteria) : TaskEntry :=
  { e with
    acceptance_criteria := some tc.acceptance_criteria
    unit_tests := tc.unit_tests
    integration_tests := tc.integration_tests }

/-- One iteration of the criteria join (agent.py lines 163-167): update the
entry when `task_title` is a key of `tasks_dict`, otherwise do nothing. -/
def apply_task_criteria (d : List (String × TaskEntry)) (tc : TaskAcceptanceCriteria) :
    List (String × TaskEntry) :=
  dictUpdate d tc.task_title (fun e => applyCriteriaToEntry e tc)

/-- Step 2 of the aggregator (agent.py lines 161-167). -/
def apply_acceptance_criteria (d : List (String × TaskEntry))
    (criteria : List FeatureAcceptanceCriteria) : List (String × TaskEntry) :=
  criteria.foldl (fun d fc => fc.tasks_criteria.foldl apply_task_criteria d) d

/-- The field assignment of agent.py line 172. -/
def applyPromptToEntry (e : TaskEntry) (tp : TaskCopilotPrompt) : TaskEntry :=
  { e with copilot_prompt := some tp.prompt }

/-- One iteration of the prompt join (agent.py lines 170-172). -/
def apply_task_prompt (d : List (String × TaskEntry)) (tp : TaskCopilotPrompt) :
    List (String × TaskEntry) :=
  dictUpdate d tp.task_title (fun e => applyPromptToEntry e tp)

/-- Step 3 of the aggregator (agent.py lines 168-172). -/
def apply_copilot_prompts (d : List (String × TaskEntry))
    (prompts : List FeatureCopilotPrompts) : List (String × TaskEntry) :=
  prompts.foldl (fun d fp => fp.task_prompts.foldl apply_task_prompt d) d

/-- The per-task record placed into a phase bucket of `development_plan`
(agent.py lines 182-190); it drops the `phase` field. -/
structure PlanRecord where
  description : String
  priority : TaskPriority
  dependencies : List String
  acceptance_criteria : Option (List AcceptanceCriterion)
  unit_tests : List TestDescription
  integration_tests : List TestDescription
  copilot_prompt : Option String
deriving DecidableEq, Repr

def entryToPlanRecord (e : TaskEntry) : PlanRecord :=
  { description := e.description
    priority := e.priority
    dependencies := e.dependencies
    acceptance_criteria := e.acceptance_criteria
    unit_tests := e.unit_tests
    integration_tests := e.integration_tests
    copilot_prompt := e.copilot_prompt }

/-- Iteration order of `for phase in ProjectPhase` (agent.py line 176):
enum members in definition order. -/
def phase_list : List ProjectPhase :=
  [.setup, .implementation, .testing, .documentation]

/-- `development_plan` initialization (agent.py lines 175-177): every phase
value becomes a key mapping to an empty dict. -/
def init_development_plan : List (String × List (String × PlanRecord)) :=
  phase_list.map (fun p => (p.value, []))

/-- One iteration of the bucketing loop (agent.py lines 179-190): if the
entry's phase is a key of `development_plan`, insert the task record into
that phase's bucket; otherwise drop the entry. -/
def add_task_to_plan (plan : List (String × List (String × PlanRecord)))
    (p : String × TaskEntry) : List (String × List (String × PlanRecord)) :=
  if (dictLookup plan p.2.phase.value).isSome then
    dictUpdate plan p.2.phase.value (fun bucket => dictInsert bucket p.1 (entryToPlanRecord p.2))
  else plan

/-- Step 4 of the aggregator (agent.py lines 174-190). -/
def build_development_plan (d : List (String × TaskEntry)) :
    List (String × List (String × PlanRecord)) :=
  d.foldl add_task_to_plan init_development_plan

/-- Two-level lookup in the final document: phase bucket, then task title. -/
def planTaskLookup (plan : List (String × List (String × PlanRecord)))
    (phase_key : String) (title : String) : Option PlanRecord :=
  (dictLookup plan phase_key).bind (fun bucket => dictLookup bucket title)

/-- The pipeline state threaded through the graph
(src/catalyst_agent/state.py); an absent/None collection slot is embedded as
the empty list, matching the `state.get(..., [])` accesses in agent.py. -/
structure AgentState where
  raw_text : String
  parsed_requirements : Option ParsedRequirements
  estimated_complexities : List EstimatedComplexity
  tasks : List (List Task)
  acceptance_criteria : List FeatureAcceptanceCriteria
  copilot_prompts : List FeatureCopilotPrompts
deriving Repr

/-- The intermediate `tasks_dict` after the two join steps, just before
bucketing (agent.py lines 147-172). -/
def aggregated_tasks_dict (state : AgentState) : List (String × TaskEntry) :=
  apply_copilot_prompts
    (apply_acceptance_criteria (build_tasks_dict state.tasks) state.acceptance_criteria)
    state.copilot_prompts

/-- The structured content of the final JSON document (agent.py
lines 124-194); `raw_values` copies of the state are left out as they are
verbatim copies of `AgentState` fields. -/
structure FinalDict where
  original_text : String
  num_features : Nat
  num_tasks : Nat
  development_plan : List (String × List (String × PlanRecord))
deriving Repr

/-- `generate_final_json_node` (agent.py lines 115-194). -/
def generate_final_json_node (state : AgentState) : FinalDict :=
  { original_text := state.raw_text
    num_features :=
      match state.parsed_requirements with
      | some parsed_reqs => parsed_reqs.features.length
      | none => 0
    num_tasks := if state.tasks.isEmpty then 0 else (state.tasks.map List.length).sum
    development_plan := build_development_plan (aggregated_tasks_dict state) }

/-- The generation capability of each stage, passed explicitly (the source
reaches it through the `get_llm()` singleton of core.py). -/
structure GenCapabilities where
  genParse : String → ParsedRequirements
  genComplexity : Feature → String → EstimatedComplexity
  genTaskNames : Feature → EstimatedComplexity → List String
  genTaskDetails : Feature → List String → List Task
  genCriteria : Feature → List Task → FeatureAcceptanceCriteria
  genPrompts : Feature → List (Task × Option TaskAcceptanceCriteria) → FeatureCopilotPrompts

/-- The linear pipeline of `create_agent` (agent.py lines 196-223): parse,
estimate, decompose, criteria, prompts, aggregate, each node reading the
slots written by its predecessors. -/
def run_pipeline (g : GenCapabilities) (raw_text : String) : FinalDict :=
  let parsed := g.genParse raw_text
  let complexities := estimate_complexity g.genComplexity parsed raw_text
  let tasks := generate_tasks g.genTaskNames g.genTaskDetails parsed.features complexities
  let criteria := create_acceptance_criteria g.genCriteria parsed.features tasks
  let prompts := generate_prompt_for_copilot g.genPrompts parsed.features tasks criteria
  generate_final_json_node
    { raw_text := raw_text
      parsed_requirements := some parsed
      estimated_complexities := complexities
      tasks := tasks
      acceptance_criteria := criteria
      copilot_prompts := prompts }

/-! Characterizations of the stage folds. -/

theorem foldl_append_singleton {α β : Type} (f : α → β) (l : List α) (acc : List β) :
    l.foldl (fun acc x => acc ++ [f x]) acc = acc ++ l.map f := by
  induction l generalizing acc with
  | nil => simp
  | cons x xs ih => simp [ih]

theorem estimate_complexity_eq_map (gen : Feature → String → EstimatedComplexity)
    (requirements : ParsedRequirements) (raw_text : String) :
    estimate_complexity gen requirements raw_text =
      requirements.features.map (fun feature => gen feature raw_text) := by
  simpa using foldl_append_singleton (fun feature => gen feature raw_text) requirements.features []

theorem generate_tasks_eq_map (gen_names : Feature → EstimatedComplexity → List String)
    (gen_details : Feature → List String → List Task)
    (features : List Feature) (complexities : List EstimatedComplexity) :
    generate_tasks gen_names gen_details features complexities =
      (features.zip complexities).map (fun fc => gen_details fc.1 (gen_names fc.1 fc.2)) := by
  simpa using foldl_append_singleton (fun fc => gen_details fc.1 (gen_names fc.1 fc.2))
    (features.zip complexities) []

theorem create_acceptance_criteria_eq_map (gen : Feature → List Task → FeatureAcceptanceCriteria)
    (features : List Feature) (tasks : List (List Task)) :
    create_acceptance_criteria gen features tasks =
      (features.zip tasks).map (fun ft => gen ft.1 ft.2) := by
  simpa using foldl_append_singleton (fun ft => gen ft.1 ft.2) (features.zip tasks) []

theorem generate_prompt_for_copilot_eq_map
    (gen : Feature → List (Task × Option TaskAcceptanceCriteria) → FeatureCopilotPrompts)
    (features : List Feature) (tasks : List (List Task))
    (acceptance_criteria : List FeatureAcceptanceCriteria) :
    generate_prompt_for_copilot gen features tasks acceptance_criteria =
      (features.zip (tasks.zip acceptance_criteria)).map
        (fun fta => gen fta.1 (fta.2.1.map (fun task => (task, find_task_criteria fta.2.2 task)))) := by
  simpa using foldl_append_singleton
    (fun fta => gen fta.1 (fta.2.1.map (fun task => (task, find_task_criteria fta.2.2 task))))
    (features.zip (tasks.zip acceptance_criteria)) []

/-- C1: a successful Estimate stage returns exactly one EstimatedComplexity
per feature of the input ParsedRequirements, and the i-th returned value is
the result of the generation call made for the i-th feature, so the output
sequence is positionally aligned with the input features order. -/
theorem estimate_complexity_alignment (gen : Feature → String → EstimatedComplexity)
    (requirements : ParsedRequirements) (raw_text : String) :
    (estimate_complexity gen requirements raw_text).length = requirements.features.length ∧
    ∀ i : Nat, (estimate_complexity gen requirements raw_text)[i]? =
      (requirements.features[i]?).map (fun feature => gen feature raw_text) := by
  rw [estimate_complexity_eq_map]
  exact ⟨by simp, fun i => List.getElem?_map _ _ i⟩

/-- C7: the per-feature loops of the Decompose, Acceptance-criteria and
Prompt-generation stages pair their input sequences positionally; when the
lengths disagree they silently truncate to the shorter sequence, producing
one output group per zipped pair, i.e. exactly the minimum of the input
lengths — no alignment error is raised (the functions are total). -/
theorem downstream_zip_truncation
    (gen_names : Feature → EstimatedComplexity → List String)
    (gen_details : Feature → List String → List Task)
    (gen_criteria : Feature → List Task → FeatureAcceptanceCriteria)
    (gen_prompts : Feature → List (Task × Option TaskAcceptanceCriteria) → FeatureCopilotPrompts)
    (features : List Feature) (complexities : List EstimatedComplexity)
    (tasks : List (List Task)) (acceptance_criteria : List FeatureAcceptanceCriteria) :
    (generate_tasks gen_names gen_details features complexities).length
        = min features.length complexities.length ∧
    (create_acceptance_criteria gen_criteria features tasks).length
        = min features.length tasks.length ∧
    (generate_prompt_for_copilot gen_prompts features tasks acceptance_criteria).length
        = min features.length (min tasks.length acceptance_criteria.length) := by
  refine ⟨?_, ?_, ?_⟩
  · rw [generate_tasks_eq_map, List.length_map, List.length_zip]
  · rw [create_acceptance_criteria_eq_map, List.length_map, List.length_zip]
  · rw [generate_prompt_for_copilot_eq_map, List.length_map, List.length_zip, List.length_zip]

/-! C2: the Decompose stage and the step-1 name list. -/

def cexFeature : Feature :=
  { name := "Login", description := "login page" }

def cexComplexity : EstimatedComplexity :=
  { difficulty := .easy, estimated_days := 2, risks := [] }

/-- A step-1 capability answering the fixed name list ["A", "B"]. -/
def cexGenNames : Feature → EstimatedComplexity → List String :=
  fun _ _ => ["A", "B"]

def cexTask : Task :=
  { title := "C", description := "not on the list", priority := .low
    dependencies := [], phase := .implementation }

/-- A step-2 capability answering a batch whose single title "C" is not in
the step-1 name list. -/
def cexGenDetails : Feature → List String → List Task :=
  fun _ _ => [cexTask]

/-- C2 counterexample: `generate_tasks` accepts a batch-detail response
whose titles are not a subset of the step-1 name list — the returned group
contains a task titled "C" although step 1 produced only ["A", "B"]; no
acceptance check exists in the code. -/
theorem generate_tasks_accepts_offlist_titles :
    generate_tasks cexGenNames cexGenDetails [cexFeature] [cexComplexity] = [[cexTask]] ∧
    cexTask.title ∉ cexGenNames cexFeature cexComplexity := by
  exact ⟨rfl, by decide⟩

/-- C2 (amended): `generate_tasks` forwards each feature's batch-detail
response verbatim without any title validation; consequently the title
closure holds exactly when the detail-generation capability honours the
prompt contract.  If every detail response only uses titles from the name
list it was given, then every `Task.title` in the i-th output group equals
one of the names produced by the step-1 call for the i-th zipped
(feature, complexity) pair. -/
theorem generate_tasks_title_closure
    (gen_names : Feature → EstimatedComplexity → List String)
    (gen_details : Feature → List String → List Task)
    (features : List Feature) (complexities : List EstimatedComplexity)
    (hcontract : ∀ f names, ∀ t ∈ gen_details f names, t.title ∈ names) :
    ∀ (i : Nat) (task_group : List Task),
      (generate_tasks gen_names gen_details features complexities)[i]? = some task_group →
      ∀ fc : Feature × EstimatedComplexity, (features.zip complexities)[i]? = some fc →
        ∀ t ∈ task_group, t.title ∈ gen_names fc.1 fc.2 := by
  intro i task_group hgroup fc hfc t ht
  rw [generate_tasks_eq_map, List.getElem?_map, hfc] at hgroup
  have hgt : gen_details fc.1 (gen_names fc.1 fc.2) = task_group := by
    simpa using hgroup
  subst hgt
  exact hcontract fc.1 (gen_names fc.1 fc.2) t ht

/-- A contract-honouring step-2 capability: it details exactly the names it
is given. -/
def wGenDetails : Feature → List String → List Task :=
  fun _ names => names.map (fun n =>
    { title := n, description := "detail", priority := .medium
      dependencies := [], phase := .setup })

def wTaskA : Task :=
  { title := "A", description := "detail", priority := .medium
    dependencies := [], phase := .setup }

/-- Witness for the amended C2 theorem at a concrete input. -/
theorem generate_tasks_title_closure_witness :
    wTaskA.title ∈ cexGenNames cexFeature cexComplexity :=
  generate_tasks_title_closure cexGenNames wGenDetails [cexFeature] [cexComplexity]
    (by
      intro f names t ht
      simp only [wGenDetails, List.mem_map] at ht
      obtain ⟨n, hn, rfl⟩ := ht
      exact hn)
    0 [wTaskA, { wTaskA with title := "B" }] rfl (cexFeature, cexComplexity) rfl
    wTaskA (by decide)

/-! C4: the intermediate `tasks_dict` of the aggregator. -/

theorem build_tasks_dict_eq_flat (tasks : List (List Task)) :
    build_tasks_dict tasks =
      tasks.flatten.foldl (fun d task => dictInsert d task.title (taskToEntry task)) [] := by
  exact (List.foldl_flatten _ _ tasks).symm

theorem foldl_insert_lookup (l : List Task) (d0 : List (String × TaskEntry)) (t : String) :
    dictLookup (l.foldl (fun d task => dictInsert d task.title (taskToEntry task)) d0) t =
      match (l.filter (fun task => task.title == t)).getLast? with
      | some task => some (taskToEntry task)
      | none => dictLookup d0 t := by
  induction l generalizing d0 with
  | nil => rfl
  | cons task rest ih =>
    simp only [List.foldl_cons, List.filter_cons]
    rw [ih]
    by_cases hp : task.title = t
    · have hb : (task.title == t) = true := beq_iff_eq.mpr hp
      rw [hb, if_pos rfl]
      rcases hrf : rest.filter (fun task => task.title == t) with _ | ⟨tk0, rtail⟩
      · rw [hrf]
        simp only [List.getLast?_nil, List.getLast?_singleton]
        rw [← hp, dictLookup_insert_self]
      · rw [hrf, List.getLast?_cons_cons]
        obtain ⟨x, hx⟩ := Option.isSome_iff_exists.mp
          (by simp [List.getLast?_isSome] : ((tk0 :: rtail).getLast?).isSome = true)
        rw [hx]
    · have hb : (task.title == t) = false := beq_eq_false_iff_ne.mpr hp
      rw [hb, if_neg (by simp)]
      rcases hrf : rest.filter (fun task => task.title == t) with _ | ⟨tk0, rtail⟩
      · rw [hrf]
        simp only [List.getLast?_nil]
        rw [dictLookup_insert_ne _ _ _ _ (fun h => hp h.symm)]
      · rw [hrf]
        obtain ⟨x, hx⟩ := Option.isSome_iff_exists.mp
          (by simp [List.getLast?_isSome] : ((tk0 :: rtail).getLast?).isSome = true)
        rw [hx]

theorem build_tasks_dict_lookup_eq (tasks : List (List Task)) (t : String) :
    dictLookup (build_tasks_dict tasks) t =
      ((tasks.flatten.filter (fun task => task.title == t)).getLast?).map taskToEntry := by
  rw [build_tasks_dict_eq_flat, foldl_insert_lookup]
  generalize (tasks.flatten.filter (fun task => task.title == t)).getLast? = o
  cases o <;> rfl

/-- C4: in the intermediate `tasks_dict` built by the aggregator, the entry
stored under a title is exactly the entry of the last task with that title
in iteration order (all feature groups flattened in order), so a task from a
later-iterated feature group overwrites a same-titled task from an earlier
group, while every distinct title keeps its own entry; titles that occur in
no group have no entry. -/
theorem build_tasks_dict_last_wins (tasks : List (List Task)) (t : String) :
    dictLookup (build_tasks_dict tasks) t =
      ((tasks.flatten.filter (fun task => task.title == t)).getLast?).map taskToEntry :=
  build_tasks_dict_lookup_eq tasks t

/-! The two enrichment joins of the aggregator, flattened and characterized. -/

theorem foldl_update_lookup {α R : Type} (key : R → String) (u : α → R → α)
    (hover : ∀ (e : α) (r1 r2 : R), u (u e r1) r2 = u e r2)
    (rs : List R) (d : List (String × α)) (t : String) :
    dictLookup (rs.foldl (fun d r => dictUpdate d (key r) (fun e => u e r)) d) t =
      (dictLookup d t).map (fun e =>
        (((rs.filter (fun r => key r == t)).getLast?).map (u e)).getD e) := by
  induction rs generalizing d with
  | nil =>
    simp only [List.foldl_nil, List.filter_nil, List.getLast?_nil]
    cases dictLookup d t <;> rfl
  | cons r rest ih =>
    simp only [List.foldl_cons, List.filter_cons]
    rw [ih]
    by_cases hp : key r = t
    · have hb : (key r == t) = true := beq_iff_eq.mpr hp
      have h1 : dictLookup (dictUpdate d (key r) (fun e => u e r)) t =
          (dictLookup d t).map (fun e => u e r) := by
        rw [← hp, dictLookup_update_self]
      rw [hb, if_pos rfl, h1]
      cases ho : dictLookup d t with
      | none => rfl
      | some e =>
        rcases hrf : rest.filter (fun r => key r == t) with _ | ⟨r0, rtail⟩
        · rfl
        · rw [List.getLast?_cons_cons]
          obtain ⟨x, hx⟩ := Option.isSome_iff_exists.mp
            (by simp [List.getLast?_isSome] : ((r0 :: rtail).getLast?).isSome = true)
          rw [hx]
          simp only [Option.map_some', Option.getD_some]
          rw [hover]
    · have hb : (key r == t) = false := beq_eq_false_iff_ne.mpr hp
      rw [hb, if_neg (by simp), dictLookup_update_ne _ _ _ _ (fun h => hp h.symm)]

/-- The criteria records of all features, in iteration order of the nested
loop of agent.py lines 162-163. -/
def all_tasks_criteria (criteria : List FeatureAcceptanceCriteria) :
    List TaskAcceptanceCriteria :=
  (criteria.map FeatureAcceptanceCriteria.tasks_criteria).flatten

/-- The prompt records of all features, in iteration order of the nested
loop of agent.py lines 169-170. -/
def all_task_prompts (prompts : List FeatureCopilotPrompts) : List TaskCopilotPrompt :=
  (prompts.map FeatureCopilotPrompts.task_prompts).flatten

theorem apply_acceptance_criteria_eq_flat (d : List (String × TaskEntry))
    (criteria : List FeatureAcceptanceCriteria) :
    apply_acceptance_criteria d criteria =
      (all_tasks_criteria criteria).foldl apply_task_criteria d := by
  unfold apply_acceptance_criteria all_tasks_criteria
  rw [List.foldl_flatten, List.foldl_map]

theorem apply_copilot_prompts_eq_flat (d : List (String × TaskEntry))
    (prompts : List FeatureCopilotPrompts) :
    apply_copilot_prompts d prompts =
      (all_task_prompts prompts).foldl apply_task_prompt d := by
  unfold apply_copilot_prompts all_task_prompts
  rw [List.foldl_flatten, List.foldl_map]

theorem apply_acceptance_criteria_lookup (d : List (String × TaskEntry))
    (criteria : List FeatureAcceptanceCriteria) (t : String) :
    dictLookup (apply_acceptance_criteria d criteria) t =
      (dictLookup d t).map (fun e =>
        ((((all_tasks_criteria criteria).filter
            (fun tc => tc.task_title == t)).getLast?).map (applyCriteriaToEntry e)).getD e) := by
  rw [apply_acceptance_criteria_eq_flat]
  have heq : apply_task_criteria =
      fun d tc => dictUpdate d tc.task_title (fun e => applyCriteriaToEntry e tc) := rfl
  rw [heq]
  exact foldl_update_lookup TaskAcceptanceCriteria.task_title applyCriteriaToEntry
    (fun e r1 r2 => rfl) (all_tasks_criteria criteria) d t

theorem apply_copilot_prompts_lookup (d : List (String × TaskEntry))
    (prompts : List FeatureCopilotPrompts) (t : String) :
    dictLookup (apply_copilot_prompts d prompts) t =
      (dictLookup d t).map (fun e =>
        ((((all_task_prompts prompts).filter
            (fun tp => tp.task_title == t)).getLast?).map (applyPromptToEntry e)).getD e) := by
  rw [apply_copilot_prompts_eq_flat]
  have heq : apply_task_prompt =
      fun d tp => dictUpdate d tp.task_title (fun e => applyPromptToEntry e tp) := rfl
  rw [heq]
  exact foldl_update_lookup TaskCopilotPrompt.task_title applyPromptToEntry
    (fun e r1 r2 => rfl) (all_task_prompts prompts) d t

/-- C5: if the state's acceptance criteria contain exactly one
TaskAcceptanceCriteria whose `task_title` X is a key of the intermediate
task map, the aggregator's join attaches that record's
`acceptance_criteria`, `unit_tests` and `integration_tests` to entry X;
and every entry whose title matches no criteria record keeps
`acceptance_criteria = none`, `unit_tests = []`, `integration_tests = []`. -/
theorem aggregator_join_correct (tasks : List (List Task))
    (criteria : List FeatureAcceptanceCriteria) (X : String)
    (r : TaskAcceptanceCriteria) (e : TaskEntry)
    (he : dictLookup (build_tasks_dict tasks) X = some e)
    (hr : (all_tasks_criteria criteria).filter (fun tc => tc.task_title == X) = [r]) :
    (∃ e2, dictLookup (apply_acceptance_criteria (build_tasks_dict tasks) criteria) X = some e2 ∧
        e2.acceptance_criteria = some r.acceptance_criteria ∧
        e2.unit_tests = r.unit_tests ∧
        e2.integration_tests = r.integration_tests) ∧
    ∀ t : String, (all_tasks_criteria criteria).filter (fun tc => tc.task_title == t) = [] →
      ∀ e', dictLookup (apply_acceptance_criteria (build_tasks_dict tasks) criteria) t = some e' →
        e'.acceptance_criteria = none ∧ e'.unit_tests = [] ∧ e'.integration_tests = [] := by
  constructor
  · refine ⟨applyCriteriaToEntry e r, ?_, rfl, rfl, rfl⟩
    rw [apply_acceptance_criteria_lookup, he, hr]
    simp only [List.getLast?_singleton, Option.map_some', Option.getD_some]
  · intro t hft e' he'
    rw [apply_acceptance_criteria_lookup, hft] at he'
    have hd0 : dictLookup (build_tasks_dict tasks) t = some e' := by
      cases ho : dictLookup (build_tasks_dict tasks) t with
      | none => rw [ho] at he'; simp at he'
      | some e0 =>
        rw [ho] at he'
        simpa using he'
    have hlast := build_tasks_dict_lookup_eq tasks t
    rw [hd0] at hlast
    cases hgl : (tasks.flatten.filter (fun task => task.title == t)).getLast? with
    | none => rw [hgl] at hlast; simp at hlast
    | some tk =>
      rw [hgl] at hlast
      simp only [Option.map_some'] at hlast
      obtain rfl : e' = taskToEntry tk := Option.some.inj hlast
      exact ⟨rfl, rfl, rfl⟩

def wCrit : TaskAcceptanceCriteria :=
  { task_title := "A"
    acceptance_criteria := [{ given := "a login form", when := "submitted", thenOutcome := "user is authenticated" }]
    unit_tests := [{ test_name := "test_submit", test_type := .unit, description := "form submit" }]
    integration_tests := [] }

def wFAC : FeatureAcceptanceCriteria :=
  { feature_name := "Login", tasks_criteria := [wCrit] }

/-- Witness for the C5 theorem at a concrete input. -/
theorem aggregator_join_correct_witness :
    ∃ e2, dictLookup (apply_acceptance_criteria (build_tasks_dict [[wTaskA]]) [wFAC]) "A" = some e2 ∧
      e2.acceptance_criteria = some wCrit.acceptance_criteria ∧
      e2.unit_tests = wCrit.unit_tests ∧
      e2.integration_tests = wCrit.integration_tests :=
  (aggregator_join_correct [[wTaskA]] [wFAC] "A" wCrit (taskToEntry wTaskA)
    (by decide) (by decide)).1

/-- C6: a lookup miss during the aggregator's join steps is non-fatal — a
TaskAcceptanceCriteria or copilot-prompt record whose `task_title` is not a
key of the intermediate task map leaves the map completely unchanged: no
entry is created for that title and every existing entry keeps its fields
(the join functions are total, so aggregation completes without error). -/
theorem aggregator_lookup_miss_nonfatal (d : List (String × TaskEntry))
    (tc : TaskAcceptanceCriteria) (tp : TaskCopilotPrompt)
    (htc : dictLookup d tc.task_title = none)
    (htp : dictLookup d tp.task_title = none) :
    apply_task_criteria d tc = d ∧ apply_task_prompt d tp = d :=
  ⟨dictUpdate_of_lookup_none d tc.task_title _ htc,
   dictUpdate_of_lookup_none d tp.task_title _ htp⟩

def wMissCrit : TaskAcceptanceCriteria :=
  { task_title := "Y", acceptance_criteria := [], unit_tests := [], integration_tests := [] }

def wMissPrompt : TaskCopilotPrompt :=
  { task_title := "Y", prompt := "implement Y" }

/-- Witness for the C6 theorem at a concrete input: the map has only key
"A", the records carry the absent title "Y". -/
theorem aggregator_lookup_miss_nonfatal_witness :
    apply_task_criteria (build_tasks_dict [[wTaskA]]) wMissCrit = build_tasks_dict [[wTaskA]] ∧
    apply_task_prompt (build_tasks_dict [[wTaskA]]) wMissPrompt = build_tasks_dict [[wTaskA]] :=
  aggregator_lookup_miss_nonfatal (build_tasks_dict [[wTaskA]]) wMissCrit wMissPrompt
    (by decide) (by decide)

/-- C9: when several criteria records (or several prompt records) share the
same `task_title` X present in the intermediate map, the aggregator's joins
leave the values of the last-iterated record on entry X (each later record
overwrites the fields set by an earlier one), whereas the prompt-generation
stage's per-task lookup `find_task_criteria` returns the first matching
record of the list regardless of later duplicates. -/
theorem aggregator_last_wins_stage_first_match
    (d : List (String × TaskEntry)) (X : String) (e : TaskEntry)
    (criteria : List FeatureAcceptanceCriteria) (prompts : List FeatureCopilotPrompts)
    (r : TaskAcceptanceCriteria) (p : TaskCopilotPrompt)
    (he : dictLookup d X = some e)
    (hr : ((all_tasks_criteria criteria).filter (fun tc => tc.task_title == X)).getLast? = some r)
    (hp : ((all_task_prompts prompts).filter (fun tp => tp.task_title == X)).getLast? = some p)
    (task : Task) (fname : String) (tc1 : TaskAcceptanceCriteria)
    (rest : List TaskAcceptanceCriteria) (h1 : tc1.task_title = task.title) :
    dictLookup (apply_acceptance_criteria d criteria) X = some (applyCriteriaToEntry e r) ∧
    dictLookup (apply_copilot_prompts d prompts) X = some (applyPromptToEntry e p) ∧
    find_task_criteria { feature_name := fname, tasks_criteria := tc1 :: rest } task = some tc1 := by
  refine ⟨?_, ?_, ?_⟩
  · rw [apply_acceptance_criteria_lookup, he, hr]
    simp only [Option.map_some', Option.getD_some]
  · rw [apply_copilot_prompts_lookup, he, hp]
    simp only [Option.map_some', Option.getD_some]
  · exact List.find?_cons_of_pos _ (beq_iff_eq.mpr h1)

def wCrit2 : TaskAcceptanceCriteria :=
  { task_title := "A"
    acceptance_criteria := [{ given := "second", when := "submitted", thenOutcome := "overrides" }]
    unit_tests := []
    integration_tests := [] }

def wPrompt1 : TaskCopilotPrompt := { task_title := "A", prompt := "first prompt" }

def wPrompt2 : TaskCopilotPrompt := { task_title := "A", prompt := "second prompt" }

/-- Witness for the C9 theorem at a concrete input: two criteria records and
two prompt records all titled "A". -/
theorem aggregator_last_wins_stage_first_match_witness :
    dictLookup
        (apply_acceptance_criteria (build_tasks_dict [[wTaskA]])
          [{ feature_name := "F1", tasks_criteria := [wCrit] },
           { feature_name := "F2", tasks_criteria := [wCrit2] }]) "A"
      = some (applyCriteriaToEntry (taskToEntry wTaskA) wCrit2) ∧
    dictLookup
        (apply_copilot_prompts (build_tasks_dict [[wTaskA]])
          [{ task_prompts := [wPrompt1, wPrompt2] }]) "A"
      = some (applyPromptToEntry (taskToEntry wTaskA) wPrompt2) ∧
    find_task_criteria { feature_name := "F", tasks_criteria := [wCrit, wCrit2] } wTaskA
      = some wCrit :=
  aggregator_last_wins_stage_first_match (build_tasks_dict [[wTaskA]]) "A"
    (taskToEntry wTaskA)
    [{ feature_name := "F1", tasks_criteria := [wCrit] },
     { feature_name := "F2", tasks_criteria := [wCrit2] }]
    [{ task_prompts := [wPrompt1, wPrompt2] }]
    wCrit2 wPrompt2 (by decide) (by decide) (by decide) wTaskA "F" wCrit [wCrit2] (by decide)

/-! C3: phase bucketing of the intermediate map. -/

theorem add_task_to_plan_keys (plan : List (String × List (String × PlanRecord)))
    (q : String × TaskEntry) :
    (add_task_to_plan plan q).map Prod.fst = plan.map Prod.fst := by
  unfold add_task_to_plan
  by_cases h : (dictLookup plan q.2.phase.value).isSome
  · rw [if_pos h, dictUpdate_keys]
  · rw [if_neg h]

theorem build_plan_fold_keys (d : List (String × TaskEntry))
    (plan : List (String × List (String × PlanRecord))) :
    (d.foldl add_task_to_plan plan).map Prod.fst = plan.map Prod.fst := by
  induction d generalizing plan with
  | nil => rfl
  | cons q rest ih => rw [List.foldl_cons, ih, add_task_to_plan_keys]

theorem planTaskLookup_add_ne (plan : List (String × List (String × PlanRecord)))
    (q : String × TaskEntry) (pv k : String) (hk : k ≠ q.1) :
    planTaskLookup (add_task_to_plan plan q) pv k = planTaskLookup plan pv k := by
  unfold add_task_to_plan planTaskLookup
  by_cases h : (dictLookup plan q.2.phase.value).isSome
  · rw [if_pos h]
    by_cases hpv : pv = q.2.phase.value
    · rw [hpv, dictLookup_update_self]
      cases ho : dictLookup plan q.2.phase.value with
      | none => rfl
      | some bucket =>
        simp only [Option.map_some']
        show dictLookup (dictInsert bucket q.1 (entryToPlanRecord q.2)) k = dictLookup bucket k
        exact dictLookup_insert_ne bucket q.1 k _ hk
    · rw [dictLookup_update_ne _ _ _ _ hpv]
  · rw [if_neg h]

theorem planTaskLookup_fold_ne (d2 : List (String × TaskEntry)) (pv k : String) :
    ∀ plan, k ∉ d2.map Prod.fst →
      planTaskLookup (d2.foldl add_task_to_plan plan) pv k = planTaskLookup plan pv k := by
  induction d2 with
  | nil => intro plan _; rfl
  | cons q rest ih =>
    intro plan hk
    simp only [List.map_cons, List.mem_cons] at hk
    push_neg at hk
    rw [List.foldl_cons, ih _ hk.2]
    exact planTaskLookup_add_ne plan q pv k hk.1

theorem planTaskLookup_add_self (plan : List (String × List (String × PlanRecord)))
    (q : String × TaskEntry)
    (hq : (dictLookup plan q.2.phase.value).isSome = true) :
    planTaskLookup (add_task_to_plan plan q) q.2.phase.value q.1 =
      some (entryToPlanRecord q.2) := by
  unfold add_task_to_plan planTaskLookup
  rw [if_pos hq, dictLookup_update_self]
  obtain ⟨bucket, hb⟩ := Option.isSome_iff_exists.mp hq
  rw [hb]
  exact dictLookup_insert_self bucket q.1 (entryToPlanRecord q.2)

theorem build_tasks_dict_keys_nodup (tasks : List (List Task)) :
    ((build_tasks_dict tasks).map Prod.fst).Nodup := by
  rw [build_tasks_dict_eq_flat]
  suffices h : ∀ (l : List Task) (d0 : List (String × TaskEntry)), (d0.map Prod.fst).Nodup →
      ((l.foldl (fun d task => dictInsert d task.title (taskToEntry task)) d0).map Prod.fst).Nodup by
    exact h tasks.flatten [] (by simp)
  intro l
  induction l with
  | nil => intro d0 h0; exact h0
  | cons task rest ih => intro d0 h0; exact ih _ (dictInsert_keys_nodup _ _ _ h0)

theorem foldl_update_keys {α R : Type} (key : R → String) (u : α → R → α) (rs : List R) :
    ∀ d : List (String × α),
      (rs.foldl (fun d r => dictUpdate d (key r) (fun e => u e r)) d).map Prod.fst
        = d.map Prod.fst := by
  induction rs with
  | nil => intro d; rfl
  | cons r rest ih => intro d; rw [List.foldl_cons, ih, dictUpdate_keys]

theorem aggregated_tasks_dict_keys (state : AgentState) :
    (aggregated_tasks_dict state).map Prod.fst = (build_tasks_dict state.tasks).map Prod.fst := by
  unfold aggregated_tasks_dict
  rw [apply_copilot_prompts_eq_flat, apply_acceptance_criteria_eq_flat]
  have h1 : apply_task_criteria =
      fun d tc => dictUpdate d tc.task_title (fun e => applyCriteriaToEntry e tc) := rfl
  have h2 : apply_task_prompt =
      fun d tp => dictUpdate d tp.task_title (fun e => applyPromptToEntry e tp) := rfl
  rw [h1, h2, foldl_update_keys, foldl_update_keys]

theorem aggregated_tasks_dict_keys_nodup (state : AgentState) :
    ((aggregated_tasks_dict state).map Prod.fst).Nodup := by
  rw [aggregated_tasks_dict_keys]
  exact build_tasks_dict_keys_nodup state.tasks

theorem phase_value_lookup_init (ph : ProjectPhase) :
    (dictLookup init_development_plan ph.value).isSome = true := by
  cases ph <;> decide

/-- C3: every entry of the aggregator's intermediate task map lands in the
final document's development_plan under its phase key — the membership
guard of the bucketing loop always succeeds because every `Task.phase` value
is one of the pre-initialized phase keys, so no intermediate entry is
omitted. -/
theorem development_plan_complete (state : AgentState) (p : String × TaskEntry)
    (hmem : p ∈ aggregated_tasks_dict state) :
    planTaskLookup (generate_final_json_node state).development_plan p.2.phase.value p.1 =
      some (entryToPlanRecord p.2) := by
  have hnodup := aggregated_tasks_dict_keys_nodup state
  obtain ⟨d1, d2, hd⟩ := List.append_of_mem hmem
  have hplan : (generate_final_json_node state).development_plan =
      build_development_plan (aggregated_tasks_dict state) := rfl
  rw [hplan]
  unfold build_development_plan
  rw [hd, List.foldl_append, List.foldl_cons]
  have hk2 : p.1 ∉ d2.map Prod.fst := by
    rw [hd] at hnodup
    simp only [List.map_append, List.map_cons] at hnodup
    exact (List.nodup_cons.mp hnodup.of_append_right).1
  refine (planTaskLookup_fold_ne d2 p.2.phase.value p.1 _ hk2).trans ?_
  apply planTaskLookup_add_self
  rw [dictLookup_isSome_iff, build_plan_fold_keys, ← dictLookup_isSome_iff]
  exact phase_value_lookup_init p.2.phase

def wState : AgentState :=
  { raw_text := "Build a login page"
    parsed_requirements := some { features := [cexFeature], constraints := [],
                                  stakeholders := [], success_criteria := [] }
    estimated_complexities := [cexComplexity]
    tasks := [[wTaskA]]
    acceptance_criteria := [wFAC]
    copilot_prompts := [{ task_prompts := [wPrompt1] }] }

def wEntry : TaskEntry :=
  applyPromptToEntry (applyCriteriaToEntry (taskToEntry wTaskA) wCrit) wPrompt1

/-- Witness for the C3 theorem at a concrete state. -/
theorem development_plan_complete_witness :
    planTaskLookup (generate_final_json_node wState).development_plan
        wEntry.phase.value "A" = some (entryToPlanRecord wEntry) :=
  development_plan_complete wState ("A", wEntry) (by decide)

/-! C8: the empty-input run. -/

def empty_parsed_requirements : ParsedRequirements :=
  { features := [], constraints := [], stakeholders := [], success_criteria := [] }

/-- C8: for the empty raw input text, with the parse capability returning a
ParsedRequirements whose collections are all empty, the pipeline completes
(all stages are total) and the final document reports zero features, zero
tasks, and a development_plan containing every phase enumeration value as a
key, each mapping to an empty record set. -/
theorem empty_input_pipeline (g : GenCapabilities)
    (hparse : g.genParse "" = empty_parsed_requirements) :
    (run_pipeline g "").num_features = 0 ∧
    (run_pipeline g "").num_tasks = 0 ∧
    (run_pipeline g "").development_plan =
      [("setup", []), ("implementation", []), ("testing", []), ("documentation", [])] := by
  unfold run_pipeline
  rw [hparse]
  exact ⟨rfl, rfl, rfl⟩

/-- A concrete stub generation capability returning empty collections. -/
def stub_gen : GenCapabilities :=
  { genParse := fun _ => empty_parsed_requirements
    genComplexity := fun _ _ => { difficulty := .easy, estimated_days := 0, risks := [] }
    genTaskNames := fun _ _ => []
    genTaskDetails := fun _ _ => []
    genCriteria := fun f _ => { feature_name := f.name, tasks_criteria := [] }
    genPrompts := fun _ _ => { task_prompts := [] } }

/-- Witness for the C8 theorem with the concrete stub capability. -/
theorem empty_input_pipeline_witness :
    (run_pipeline stub_gen "").num_features = 0 ∧
    (run_pipeline stub_gen "").num_tasks = 0 ∧
    (run_pipeline stub_gen "").development_plan =
      [("setup", []), ("implementation", []), ("testing", []), ("documentation", [])] :=
  empty_input_pipeline stub_gen rfl

/-! C10: the task count in metadata versus the entries of the plan. -/

/-- Total number of task records placed across all phase buckets. -/
def plan_total_entries (plan : List (String × List (String × PlanRecord))) : Nat :=
  (plan.map (fun b => b.2.length)).sum

theorem dictUpdate_sum_length_le {β : Type} (plan : List (String × List β)) (k : String)
    (f : List β → List β) (hf : ∀ b, (f b).length ≤ b.length + 1) :
    ((dictUpdate plan k f).map (fun b => b.2.length)).sum
      ≤ (plan.map (fun b => b.2.length)).sum + 1 := by
  induction plan with
  | nil => simp [dictUpdate]
  | cons p rest ih =>
    by_cases hp : p.1 = k
    · simp only [dictUpdate, if_pos hp, List.map_cons, List.sum_cons]
      have := hf p.2
      omega
    · simp only [dictUpdate, if_neg hp, List.map_cons, List.sum_cons]
      omega

theorem add_task_to_plan_total_le (plan : List (String × List (String × PlanRecord)))
    (q : String × TaskEntry) :
    plan_total_entries (add_task_to_plan plan q) ≤ plan_total_entries plan + 1 := by
  unfold add_task_to_plan plan_total_entries
  by_cases h : (dictLookup plan q.2.phase.value).isSome
  · rw [if_pos h]
    exact dictUpdate_sum_length_le _ _ _ (fun b => dictInsert_length_le b q.1 _)
  · rw [if_neg h]
    omega

theorem build_development_plan_total_le (d : List (String × TaskEntry)) :
    plan_total_entries (build_development_plan d) ≤ d.length := by
  unfold build_development_plan
  suffices h : ∀ (d : List (String × TaskEntry)) (plan : List (String × List (String × PlanRecord))),
      plan_total_entries (d.foldl add_task_to_plan plan) ≤ plan_total_entries plan + d.length by
    have h0 := h d init_development_plan
    have hinit : plan_total_entries init_development_plan = 0 := rfl
    omega
  intro d
  induction d with
  | nil => intro plan; simp
  | cons q rest ih =>
    intro plan
    rw [List.foldl_cons]
    have h1 := ih (add_task_to_plan plan q)
    have h2 := add_task_to_plan_total_le plan q
    simp only [List.length_cons]
    omega

theorem foldl_insert_length_le (l : List Task) :
    ∀ d0 : List (String × TaskEntry),
      (l.foldl (fun d task => dictInsert d task.title (taskToEntry task)) d0).length
        ≤ d0.length + l.length := by
  induction l with
  | nil => intro d0; simp
  | cons task rest ih =>
    intro d0
    rw [List.foldl_cons]
    have h1 := ih (dictInsert d0 task.title (taskToEntry task))
    have h2 := dictInsert_length_le d0 task.title (taskToEntry task)
    simp only [List.length_cons]
    omega

theorem build_tasks_dict_length_le (tasks : List (List Task)) :
    (build_tasks_dict tasks).length ≤ (tasks.map List.length).sum := by
  rw [build_tasks_dict_eq_flat]
  have h := foldl_insert_length_le tasks.flatten []
  simpa [List.length_flatten] using h

theorem aggregated_tasks_dict_length (state : AgentState) :
    (aggregated_tasks_dict state).length = (build_tasks_dict state.tasks).length := by
  have h := congrArg List.length (aggregated_tasks_dict_keys state)
  simpa using h

/-- C10: the `num_tasks` metadata count equals the total number of tasks
across all feature task groups, and it bounds from above the total number
of task entries placed in development_plan — title collisions collapse
intermediate entries, and the bucketing loop inserts each intermediate
entry at most once. -/
theorem metadata_num_tasks_bound (state : AgentState) :
    (generate_final_json_node state).num_tasks = (state.tasks.map List.length).sum ∧
    plan_total_entries (generate_final_json_node state).development_plan ≤
      (generate_final_json_node state).num_tasks := by
  have hnum : (generate_final_json_node state).num_tasks = (state.tasks.map List.length).sum := by
    show (if state.tasks.isEmpty then 0 else (state.tasks.map List.length).sum) = _
    cases state.tasks with
    | nil => rfl
    | cons g gs => rfl
  refine ⟨hnum, ?_⟩
  rw [hnum]
  show plan_total_entries (build_development_plan (aggregated_tasks_dict state)) ≤ _
  calc plan_total_entries (build_development_plan (aggregated_tasks_dict state))
      ≤ (aggregated_tasks_dict state).length := build_development_plan_total_le _
    _ = (build_tasks_dict state.tasks).length := aggregated_tasks_dict_length state
    _ ≤ (state.tasks.map List.length).sum := build_tasks_dict_length_le state.tasks

end Catalyst
